import Mathlib

/-!
Shallow embedding of the Sharp-Reports dashboard pipeline (src/app.py):
date normalization, numeric-category detection, window filtering,
monthly aggregation, melting to long form, and totals computation.
Machine data is modelled with exact integers; pandas timestamps are
modelled as a calendar day plus seconds-within-day.
-/

namespace Sharp

/-- A calendar day (year, month 1..12, day-of-month 1..31). -/
structure Day where
  y : Int
  m : Nat
  d : Nat
deriving DecidableEq, Repr

/-- A pandas timestamp: a calendar day plus a time-of-day in seconds. -/
structure Stamp where
  day : Day
  secs : Nat
deriving DecidableEq, Repr

def Day.ltb (a b : Day) : Bool :=
  a.y < b.y || (a.y == b.y && (a.m < b.m || (a.m == b.m && a.d < b.d)))

def Day.leb (a b : Day) : Bool :=
  a.y < b.y || (a.y == b.y && (a.m < b.m || (a.m == b.m && a.d ≤ b.d)))

def Stamp.ltb (a b : Stamp) : Bool :=
  Day.ltb a.day b.day || (a.day == b.day && a.secs < b.secs)

def Stamp.leb (a b : Stamp) : Bool :=
  Day.ltb a.day b.day || (a.day == b.day && a.secs ≤ b.secs)

/-- One spreadsheet cell: a number, a text, an Excel datetime, or missing. -/
inductive Cell where
  | num (v : Int)
  | text (s : String)
  | dt (t : Stamp)
  | na
deriving DecidableEq, Repr

/-- A raw record: an association list from column name to cell. -/
abbrev Row := List (String × Cell)

/-- Column access (missing column reads as NA, as `row[col]` on a frame row). -/
def Row.get (r : Row) (c : String) : Cell :=
  match r.find? (fun p => p.1 == c) with
  | some p => p.2
  | none => Cell.na

/-- Column assignment on one row (replaces an existing entry in place). -/
def Row.set (r : Row) (c : String) (v : Cell) : Row :=
  r.map (fun p => if p.1 == c then (p.1, v) else p)

/-- A raw table as read from the workbook: ordered columns, ordered rows. -/
structure Table where
  columns : List String
  rows : List Row
deriving DecidableEq, Repr

/-! ### Date parsing (`pd.to_datetime(..., format=..., errors="coerce")`) -/

def digitVal (c : Char) : Option Nat :=
  if c.isDigit then some (c.toNat - 48) else none

def digitsToNatAux : List Char → Nat → Option Nat
  | [], acc => some acc
  | c :: cs, acc =>
    match digitVal c with
    | some d => digitsToNatAux cs (acc * 10 + d)
    | none => none

/-- Reads a non-empty all-digit character list as a number. -/
def digitsToNat : List Char → Option Nat
  | [] => none
  | c :: cs => digitsToNatAux (c :: cs) 0

/-- Splits a character list on the dash character. -/
def splitDashAux : List Char → List Char → List (List Char)
  | [], cur => [cur.reverse]
  | c :: cs, cur =>
    if c = '-' then cur.reverse :: splitDashAux cs []
    else splitDashAux cs (c :: cur)

def splitDash (cs : List Char) : List (List Char) := splitDashAux cs []

def mkDay (y m d : Nat) : Option Day :=
  if 1 ≤ m && m ≤ 12 && 1 ≤ d && d ≤ 31 then some ⟨(y : Int), m, d⟩ else none

/-- strptime with format month-day-year (`%m-%d-%Y`). -/
def parseMDY (s : String) : Option Day :=
  match splitDash s.toList with
  | [ms, ds, ys] =>
    match digitsToNat ms, digitsToNat ds, digitsToNat ys with
    | some m, some d, some y => mkDay y m d
    | _, _, _ => none
  | _ => none

/-- strptime with format year-month-day (`%Y-%m-%d`). -/
def parseYMD (s : String) : Option Day :=
  match splitDash s.toList with
  | [ys, ms, ds] =>
    match digitsToNat ys, digitsToNat ms, digitsToNat ds with
    | some y, some m, some d => mkDay y m d
    | _, _, _ => none
  | _ => none

/-- Elementwise `pd.to_datetime(cell, format=fmt, errors="coerce")`:
datetime cells pass through unchanged, text parses under the format
(midnight on success), everything else coerces to NaT (`none`). -/
def toDatetime (fmt : String → Option Day) : Cell → Option Stamp
  | Cell.dt t => some t
  | Cell.text s => (fmt s).map (fun d => ⟨d, 0⟩)
  | Cell.num _ => none
  | Cell.na => none

/-- A normalized record: a parsed date plus the record's cells. -/
structure NRow where
  date : Stamp
  cells : Row
deriving DecidableEq, Repr

/-- A normalized table: the frame after `to_datetime` + `dropna(subset=["Date"])`. -/
structure NTable where
  columns : List String
  rows : List NRow
deriving DecidableEq, Repr

/-- Date normalization: parse the Date column under the domain's format,
silently dropping records whose date coerces to NaT, and store the parsed
timestamp back in the Date column (src/app.py lines 17-20 and 25-28). -/
def normalize (fmt : String → Option Day) (t : Table) : NTable :=
  { columns := t.columns,
    rows := t.rows.filterMap (fun r =>
      (toDatetime fmt (Row.get r "Date")).map
        (fun s => ⟨s, Row.set r "Date" (Cell.dt s)⟩)) }

/-- `.dt.date` then back to datetime: discards the time-of-day component
of every record's date (src/app.py lines 21-22, token table only). -/
def stripTime (t : NTable) : NTable :=
  { columns := t.columns,
    rows := t.rows.map (fun r => ⟨⟨r.date.day, 0⟩, Row.set r.cells "Date" (Cell.dt ⟨r.date.day, 0⟩)⟩) }

/-! ### Category detection -/

def isNumCell : Cell → Bool
  | Cell.num _ => true
  | _ => false

/-- `pd.api.types.is_numeric_dtype` on a column: every record's cell there
is numeric. -/
def NTable.numericCol (t : NTable) (c : String) : Bool :=
  t.rows.all (fun r => isNumCell (Row.get r.cells c))

/-- The generic detector: columns that are uniformly numeric and not in the
excluded name set, in first-seen column order. -/
def detectCategories (t : NTable) (excl : List String) : List String :=
  t.columns.filter (fun c => t.numericCol c && !(excl.contains c))

/-- src/app.py line 30: numeric columns of the referral frame other than Date. -/
def referral_sources (t : NTable) : List String :=
  t.columns.filter (fun c => c ≠ "Date" && t.numericCol c)

/-- src/app.py lines 37-39: `select_dtypes(include="number")` columns of the
filtered token frame, minus the stored Total column. -/
def token_source_cols (t : NTable) : List String :=
  t.columns.filter (fun c => t.numericCol c && c ≠ "Total")

/-- All numeric-dtype columns (what `resample(...).sum(numeric_only=True)` keeps). -/
def NTable.numericCols (t : NTable) : List String :=
  t.columns.filter (fun c => t.numericCol c)

/-! ### Window filtering -/

def jan1_2025 : Stamp := ⟨⟨2025, 1, 1⟩, 0⟩
def dec31_2024 : Stamp := ⟨⟨2024, 12, 31⟩, 0⟩

/-- `frame[frame["Date"] >= bound]` (src/app.py lines 36, 114). -/
def filterOnAfter (t : NTable) (bound : Stamp) : NTable :=
  { columns := t.columns, rows := t.rows.filter (fun r => Stamp.leb bound r.date) }

/-- `frame[frame["Date"] > bound]` (src/app.py lines 72, 158). -/
def filterAfter (t : NTable) (bound : Stamp) : NTable :=
  { columns := t.columns, rows := t.rows.filter (fun r => Stamp.ltb bound r.date) }

/-! ### Monthly aggregation -/

/-- The linear index of a timestamp's calendar month. -/
def monthIndex (s : Stamp) : Int := s.day.y * 12 + ((s.day.m : Int) - 1)

/-- The month-start day (`to_period("M").to_timestamp()`) of a month index. -/
def monthStart (mi : Int) : Day := ⟨mi.ediv 12, (mi.emod 12).toNat + 1, 1⟩

def listMin : List Int → Int
  | [] => 0
  | x :: xs => xs.foldl min x

def listMax : List Int → Int
  | [] => 0
  | x :: xs => xs.foldl max x

/-- One aggregated month: its month index and the per-category sums. -/
structure Bucket where
  month : Int
  vals : List (String × Int)
deriving DecidableEq, Repr

def Bucket.get (b : Bucket) (c : String) : Int :=
  match b.vals.find? (fun p => p.1 == c) with
  | some p => p.2
  | none => 0

/-- Numeric view of a cell as summed by pandas (non-numeric contributes 0). -/
def cellNum : Cell → Int
  | Cell.num v => v
  | _ => 0

/-- Column sum over a record list (`frame[c].sum()`). -/
def sumCat (rows : List NRow) (c : String) : Int :=
  (rows.map (fun r => cellNum (Row.get r.cells c))).sum

def rowsInMonth (rows : List NRow) (mi : Int) : List NRow :=
  rows.filter (fun r => monthIndex r.date == mi)

/-- Every month index between the table's earliest and latest record,
inclusive, in chronological order. -/
def monthSpan (t : NTable) : List Int :=
  let idxs := t.rows.map (fun r => monthIndex r.date)
  (List.range ((listMax idxs - listMin idxs).toNat + 1)).map
    (fun k : Nat => listMin idxs + (k : Int))

def mkBucket (rows : List NRow) (cats : List String) (mi : Int) : Bucket :=
  ⟨mi, cats.map (fun c => (c, sumCat (rowsInMonth rows mi) c))⟩

/-- `resample("MS", on="Date").sum(numeric_only=True)` (src/app.py line 40):
one bucket per calendar month from the earliest to the latest record,
summing every numeric column; months without records get empty-sum buckets. -/
def resampleMS (t : NTable) : List Bucket :=
  if t.rows.isEmpty then []
  else (monthSpan t).map (mkBucket t.rows t.numericCols)

/-- `groupby("Month")[cats].sum()` after `Month = to_period("M").to_timestamp()`
(src/app.py lines 73-74, 115-116, 159-160): one bucket per month that has at
least one record, in ascending month order; empty months are omitted. -/
def groupbyMonth (t : NTable) (cats : List String) : List Bucket :=
  if t.rows.isEmpty then []
  else ((monthSpan t).filter (fun mi => t.rows.any (fun r => monthIndex r.date == mi))).map
    (mkBucket t.rows cats)

/-! ### Melt (wide-to-long reshape) and totals -/

/-- One long-form row: (month, category, value). -/
structure LongRow where
  month : Int
  cat : String
  value : Int
deriving DecidableEq, Repr

/-- `frame.melt(id_vars="Month", value_vars=cats, ...)` (src/app.py lines 77-82,
119-124): one output row per (category, bucket) pair, category-major as pandas
stacks the value columns. -/
def melt (bs : List Bucket) (cats : List String) : List LongRow :=
  cats.foldr (fun c acc => bs.map (fun b => ⟨b.month, c, b.get c⟩) ++ acc) []

/-- `melted.groupby("Month")[value].sum()` restricted to one month
(src/app.py line 135): the re-aggregated per-month total of a long form. -/
def monthTotalOfLong (lrs : List LongRow) (mi : Int) : Int :=
  ((lrs.filter (fun l => l.month == mi)).map (fun l => l.value)).sum

/-- Per-category total over a bucket sequence (`frame[c].sum()`). -/
def catTotal (bs : List Bucket) (c : String) : Int :=
  (bs.map (fun b => b.get c)).sum

/-- Per-month total: the sum across categories within one bucket. -/
def bucketTotal (b : Bucket) (cats : List String) : Int :=
  (cats.map (fun c => b.get c)).sum

/-- Grand total: the sum of all per-category totals. -/
def grandTotal (bs : List Bucket) (cats : List String) : Int :=
  (cats.map (fun c => catTotal bs c)).sum

/-! ### The per-domain pipelines of `create_figures` -/

/-- Lines 17-22: month-day-year parse, drop NaT, strip time. -/
def tokensPrepared (t : Table) : NTable := stripTime (normalize parseMDY t)

/-- Lines 25-28 for a table that has a Date column: year-month-day parse, drop NaT. -/
def cleanYMD (t : Table) : NTable := normalize parseYMD t

/-- Line 36: the token frame restricted to dates on or after 2025-01-01. -/
def tsdf (tok : NTable) : NTable := filterOnAfter tok jan1_2025

/-- Line 40 applied to the filtered token frame. -/
def monthly_tokens (tok : NTable) : List Bucket := resampleMS (tsdf tok)

/-- Lines 44-46: the displayed token grand total. When the resampled frame
already carries a numeric Total column its sum is used; otherwise a Total
column is built as the per-bucket sum of the detected source columns. -/
def total_tokens (tok : NTable) : Int :=
  if (tsdf tok).numericCols.contains "Total" then catTotal (monthly_tokens tok) "Total"
  else ((monthly_tokens tok).map (fun b => bucketTotal b (token_source_cols (tsdf tok)))).sum

def walletCols : List String := ["Android", "iOS", "Web"]

/-- Line 72. -/
def wallet_df_filtered (w : NTable) : NTable := filterAfter w dec31_2024

/-- Lines 73-74. -/
def monthly_wallets (w : NTable) : List Bucket := groupbyMonth (wallet_df_filtered w) walletCols

/-- Line 75. -/
def platform_totals (w : NTable) : List (String × Int) :=
  walletCols.map (fun c => (c, catTotal (monthly_wallets w) c))

/-- Lines 77-82. -/
def wallets_melted (w : NTable) : List LongRow := melt (monthly_wallets w) walletCols

/-- Line 31: row-wise sum of the referral source columns, stored as a new
Referrals column on the referral frame (replacing it if already present). -/
def addReferralsColumn (t : NTable) : NTable :=
  let srcs := referral_sources t
  if t.columns.contains "Referrals" then
    { columns := t.columns,
      rows := t.rows.map (fun r =>
        ⟨r.date, Row.set r.cells "Referrals"
          (Cell.num ((srcs.map (fun c => cellNum (Row.get r.cells c))).sum))⟩) }
  else
    { columns := t.columns ++ ["Referrals"],
      rows := t.rows.map (fun r =>
        ⟨r.date, r.cells ++ [("Referrals",
          Cell.num ((srcs.map (fun c => cellNum (Row.get r.cells c))).sum))]⟩) }

/-- Line 114, noting that line 31 has already added the Referrals column to the
module-level frame before `create_figures` runs. -/
def rdf (rN : NTable) : NTable := filterOnAfter (addReferralsColumn rN) jan1_2025

/-- Line 116, grouping by the source list detected at line 30 (before the add). -/
def referral_by_source (rN : NTable) : List Bucket :=
  groupbyMonth (rdf rN) (referral_sources rN)

/-- Line 117. -/
def referral_totals (rN : NTable) : List (String × Int) :=
  (referral_sources rN).map (fun c => (c, catTotal (referral_by_source rN) c))

/-- Lines 119-124. -/
def referral_melted (rN : NTable) : List LongRow :=
  melt (referral_by_source rN) (referral_sources rN)

/-- Line 158. -/
def fdf (f : NTable) : NTable := filterAfter f dec31_2024

/-- Lines 159-160. -/
def monthly_fee (f : NTable) : List Bucket := groupbyMonth (fdf f) ["TxnFee(POL)"]

/-- Line 161. -/
def total_fee (f : NTable) : Int := catTotal (monthly_fee f) "TxnFee(POL)"

/-- Lines 172-173: the lifetime totals-by-source bundle. The detected column
list comes from the filtered frame, but the sums run over the whole
normalized token frame `tokens_source_df`, not the filtered `tsdf`. -/
def total_tokens_by_source (tok : NTable) : List (String × Int) :=
  (token_source_cols (tsdf tok)).map (fun c => (c, sumCat tok.rows c))

/-! ### Workbook loading (src/app.py lines 10-16) -/

structure Workbook where
  sheets : List (String × Table)
deriving DecidableEq, Repr

/-- Python `str.strip()`: removes leading and trailing whitespace. -/
def pyStrip (s : String) : String :=
  String.mk (((s.data.dropWhile Char.isWhitespace).reverse.dropWhile Char.isWhitespace).reverse)

/-- Line 10: the dict comprehension stripping each sheet name (on a duplicate
stripped name the later sheet wins, as in a Python dict build). -/
def strippedSheets (wb : Workbook) : List (String × Table) :=
  wb.sheets.map (fun p => (pyStrip p.1, p.2))

def dictGet (l : List (String × Table)) (k : String) : Option Table :=
  (l.reverse.find? (fun p => p.1 == k)).map (fun p => p.2)

/-- `pd.read_excel(..., sheet_name=name)` (line 16): exact sheet-name lookup. -/
def readSheet (wb : Workbook) (name : String) : Option Table :=
  (wb.sheets.find? (fun p => p.1 == name)).map (fun p => p.2)

structure LoadedTables where
  referral : Table
  wallet : Table
  fee : Table
  tokens : Table
deriving DecidableEq, Repr

/-- Lines 10-16 as a fallible load: each required table is looked up in
source order, and the first missing one aborts the whole pipeline before
any aggregate is produced. -/
def loadTables (wb : Workbook) : Except String LoadedTables :=
  match dictGet (strippedSheets wb) "Referrals" with
  | none => Except.error "KeyError: Referrals"
  | some r =>
    match dictGet (strippedSheets wb) "Wallets Created" with
    | none => Except.error "KeyError: Wallets Created"
    | some w =>
      match dictGet (strippedSheets wb) "POL Data" with
      | none => Except.error "KeyError: POL Data"
      | some f =>
        match readSheet wb "Tokens per source" with
        | none => Except.error "ValueError: Tokens per source"
        | some tk => Except.ok ⟨r, w, f, tk⟩

/-! ### Object-identity model of the module-level preparation

The module prologue of src/app.py mutates the loaded frames in place
(`dropna(..., inplace=True)`, column assignment), and the names bound at
lines 12-14 alias the entries of the sheet dict built at line 10. To make
that observable we model the Python object store explicitly: a heap of
frames addressed by ids, with the sheet dict and the module-level names
holding ids rather than values. -/

/-- A frame object: still raw, or already date-normalized. -/
inductive Frame where
  | raw (t : Table)
  | norm (t : NTable)
deriving DecidableEq, Repr

structure PyHeap where
  entries : List (Nat × Frame)
  next : Nat
deriving DecidableEq, Repr

def PyHeap.get (h : PyHeap) (i : Nat) : Option Frame :=
  (h.entries.find? (fun p => p.1 == i)).map (fun p => p.2)

/-- In-place update of the object stored at id `i`. -/
def PyHeap.update (h : PyHeap) (i : Nat) (g : Frame → Frame) : PyHeap :=
  { h with entries := h.entries.map (fun p => if p.1 == i then (p.1, g p.2) else p) }

/-- Allocation of a fresh object (e.g. `.copy()` or a fresh `read_excel`). -/
def PyHeap.alloc (h : PyHeap) (f : Frame) : PyHeap × Nat :=
  ({ entries := h.entries ++ [(h.next, f)], next := h.next + 1 }, h.next)

/-- The module-level bindings after the load: the sheet dict `df` maps each
stripped sheet name to the id of its frame, and the four domain names hold
frame ids (the first three aliasing the dict's entries). -/
structure ModuleState where
  heap : PyHeap
  dfDict : List (String × Nat)
  referralId : Nat
  walletId : Nat
  feeId : Nat
  tokensId : Nat
deriving DecidableEq, Repr

def allocSheets : List (String × Table) → PyHeap → PyHeap × List (String × Nat)
  | [], h => (h, [])
  | (n, t) :: rest, h =>
    let hi := h.alloc (Frame.raw t)
    let hd := allocSheets rest hi.1
    (hd.1, (pyStrip n, hi.2) :: hd.2)

def dictGetId (d : List (String × Nat)) (k : String) : Option Nat :=
  (d.reverse.find? (fun p => p.1 == k)).map (fun p => p.2)

/-- Lines 10-16 with object identity: one frame object per sheet, the three
dict lookups alias those objects, and line 16 reads the token sheet into a
fresh object of its own. -/
def loadState (wb : Workbook) : Option ModuleState :=
  let ld := allocSheets wb.sheets { entries := [], next := 0 }
  match dictGetId ld.2 "Referrals", dictGetId ld.2 "Wallets Created",
        dictGetId ld.2 "POL Data", readSheet wb "Tokens per source" with
  | some ri, some wi, some fi, some tk =>
    let ht := ld.1.alloc (Frame.raw tk)
    some { heap := ht.1, dfDict := ld.2, referralId := ri, walletId := wi,
           feeId := fi, tokensId := ht.2 }
  | _, _, _, _ => none

/-- Lines 17-22 applied in place to the token frame. -/
def prepFrameTokens : Frame → Frame
  | Frame.raw t => Frame.norm (tokensPrepared t)
  | f => f

/-- Lines 26-28 applied in place to one frame of the wallet/referral/fee
loop (a frame without a Date column is left untouched by the guard). -/
def prepFrameYMD : Frame → Frame
  | Frame.raw t => if t.columns.contains "Date" then Frame.norm (cleanYMD t) else Frame.raw t
  | f => f

/-- Lines 30-31 applied in place to the (already normalized) referral frame. -/
def prepFrameReferrals : Frame → Frame
  | Frame.norm n => Frame.norm (addReferralsColumn n)
  | f => f

/-- The whole module-level preparation (lines 17-31), as in-place updates in
source order: token frame, then the wallet/referral/fee loop, then the
referral-sum column. -/
def prepState (s : ModuleState) : ModuleState :=
  let h1 := s.heap.update s.tokensId prepFrameTokens
  let h2 := h1.update s.walletId prepFrameYMD
  let h3 := h2.update s.referralId prepFrameYMD
  let h4 := h3.update s.feeId prepFrameYMD
  { s with heap := h4.update s.referralId prepFrameReferrals }

def Frame.asNorm : Frame → NTable
  | Frame.norm n => n
  | Frame.raw t => { columns := t.columns, rows := [] }

def ModuleState.frameAt (s : ModuleState) (i : Nat) : NTable :=
  ((s.heap.get i).map Frame.asNorm).getD { columns := [], rows := [] }

/-- The frame allocations of `create_figures` (lines 36, 72, 114, 158): each
window filter works on a `.copy()` of its source frame, so the body only ever
allocates fresh objects and never writes to a pre-existing id. -/
def createFiguresState (s : ModuleState) : ModuleState :=
  let h1 := s.heap.alloc (Frame.norm (tsdf (s.frameAt s.tokensId)))
  let h2 := h1.1.alloc (Frame.norm (wallet_df_filtered (s.frameAt s.walletId)))
  let h3 := h2.1.alloc (Frame.norm (filterOnAfter (s.frameAt s.referralId) jan1_2025))
  let h4 := h3.1.alloc (Frame.norm (fdf (s.frameAt s.feeId)))
  { s with heap := h4.1 }

/-! ## Helper lemmas -/

lemma contains_iff (l : List String) (a : String) : l.contains a = true ↔ a ∈ l := by
  rw [List.contains_iff_exists_mem_beq]
  simp

/-- Day-granular `≤` is strict `<` or equality. -/
lemma day_leb_eq (a b : Day) : Day.leb a b = (Day.ltb a b || a == b) := by
  rcases a with ⟨y1, m1, d1⟩
  rcases b with ⟨y2, m2, d2⟩
  rw [Bool.eq_iff_iff]
  simp only [Day.leb, Day.ltb, Bool.or_eq_true, Bool.and_eq_true, decide_eq_true_eq,
    beq_iff_eq, Day.mk.injEq]
  omega

/-- Comparing a midnight bound with `≤` is a day-granular comparison:
the record's time-of-day cannot matter. -/
lemma stamp_leb_day (a b : Stamp) (h : a.secs = 0) :
    Stamp.leb a b = Day.leb a.day b.day := by
  unfold Stamp.leb
  rw [h, day_leb_eq]
  simp [Nat.zero_le]

/-- Comparing a midnight bound with strict `<` is NOT day-granular: a record
on the bound's own day passes whenever its time-of-day is nonzero. -/
lemma stamp_ltb_day (a b : Stamp) (h : a.secs = 0) :
    Stamp.ltb a b = true ↔ (Day.ltb a.day b.day = true ∨ (a.day = b.day ∧ 0 < b.secs)) := by
  unfold Stamp.ltb
  rw [h]
  simp [beq_iff_eq]

lemma foldl_min_le_self (l : List Int) (a : Int) : l.foldl min a ≤ a := by
  induction l generalizing a with
  | nil => simp
  | cons x t ih => exact le_trans (ih (min a x)) (min_le_left _ _)

lemma foldl_min_le (l : List Int) (a x : Int) (hx : x ∈ l) : l.foldl min a ≤ x := by
  induction l generalizing a with
  | nil => cases hx
  | cons h t ih =>
    rcases List.mem_cons.mp hx with rfl | hx'
    · exact le_trans (foldl_min_le_self t (min a x)) (min_le_right _ _)
    · exact ih _ hx'

lemma listMin_le (l : List Int) (x : Int) (hx : x ∈ l) : listMin l ≤ x := by
  cases l with
  | nil => cases hx
  | cons h t =>
    rcases List.mem_cons.mp hx with rfl | hx'
    · exact foldl_min_le_self t x
    · exact foldl_min_le t h x hx'

lemma le_foldl_max_self (l : List Int) (a : Int) : a ≤ l.foldl max a := by
  induction l generalizing a with
  | nil => simp
  | cons x t ih => exact le_trans (le_max_left _ _) (ih (max a x))

lemma le_foldl_max (l : List Int) (a x : Int) (hx : x ∈ l) : x ≤ l.foldl max a := by
  induction l generalizing a with
  | nil => cases hx
  | cons h t ih =>
    rcases List.mem_cons.mp hx with rfl | hx'
    · exact le_trans (le_max_right _ _) (le_foldl_max_self t (max a x))
    · exact ih _ hx'

lemma le_listMax (l : List Int) (x : Int) (hx : x ∈ l) : x ≤ listMax l := by
  cases l with
  | nil => cases hx
  | cons h t =>
    rcases List.mem_cons.mp hx with rfl | hx'
    · exact le_foldl_max_self t x
    · exact le_foldl_max t h x hx'

lemma foldl_min_mem (l : List Int) (a : Int) : l.foldl min a = a ∨ l.foldl min a ∈ l := by
  induction l generalizing a with
  | nil => exact Or.inl rfl
  | cons h t ih =>
    rcases ih (min a h) with heq | hmem
    · rcases min_choice a h with h1 | h1
      · exact Or.inl (by rw [List.foldl_cons, heq, h1])
      · exact Or.inr (by rw [List.foldl_cons, heq, h1]; exact List.mem_cons_self _ _)
    · exact Or.inr (List.mem_cons_of_mem _ hmem)

lemma listMin_mem (l : List Int) (hl : l ≠ []) : listMin l ∈ l := by
  cases l with
  | nil => exact absurd rfl hl
  | cons h t =>
    rcases foldl_min_mem t h with heq | hmem
    · rw [listMin, heq]; exact List.mem_cons_self _ _
    · exact List.mem_cons_of_mem _ hmem

lemma foldl_max_mem (l : List Int) (a : Int) : l.foldl max a = a ∨ l.foldl max a ∈ l := by
  induction l generalizing a with
  | nil => exact Or.inl rfl
  | cons h t ih =>
    rcases ih (max a h) with heq | hmem
    · rcases max_choice a h with h1 | h1
      · exact Or.inl (by rw [List.foldl_cons, heq, h1])
      · exact Or.inr (by rw [List.foldl_cons, heq, h1]; exact List.mem_cons_self _ _)
    · exact Or.inr (List.mem_cons_of_mem _ hmem)

lemma listMax_mem (l : List Int) (hl : l ≠ []) : listMax l ∈ l := by
  cases l with
  | nil => exact absurd rfl hl
  | cons h t =>
    rcases foldl_max_mem t h with heq | hmem
    · rw [listMax, heq]; exact List.mem_cons_self _ _
    · exact List.mem_cons_of_mem _ hmem

lemma sum_map_add {α : Type} (l : List α) (f g : α → Int) :
    (l.map (fun x => f x + g x)).sum = (l.map f).sum + (l.map g).sum := by
  induction l with
  | nil => simp
  | cons h t ih => simp [ih]; ring

/-- Exchanging the two summations of a rectangular double sum. -/
lemma sum_swap {α β : Type} (xs : List α) (ys : List β) (f : α → β → Int) :
    (xs.map (fun x => (ys.map (fun y => f x y)).sum)).sum
      = (ys.map (fun y => (xs.map (fun x => f x y)).sum)).sum := by
  induction xs with
  | nil => simp [List.sum_eq_zero]
  | cons x xs ih =>
    simp only [List.map_cons, List.sum_cons, ih, sum_map_add]

lemma sum_indicator (ms : List Int) (mi v : Int) (hnd : ms.Nodup) (hm : mi ∈ ms) :
    (ms.map (fun m => if mi = m then v else 0)).sum = v := by
  induction ms with
  | nil => cases hm
  | cons h t ih =>
    rcases List.mem_cons.mp hm with rfl | hmi
    · have hz : (t.map (fun m => if mi = m then v else 0)).sum = 0 := by
        apply List.sum_eq_zero
        intro x hx
        rcases List.mem_map.mp hx with ⟨m, hmt, rfl⟩
        have hne : mi ≠ m := fun he => (List.nodup_cons.mp hnd).1 (he ▸ hmt)
        simp [hne]
      simp [hz]
    · have hne : mi ≠ h := by
        intro he
        exact (List.nodup_cons.mp hnd).1 (he ▸ hmi)
      simp [hne, ih (List.nodup_cons.mp hnd).2 hmi]

lemma sumCat_nil (c : String) : sumCat [] c = 0 := rfl

lemma sumCat_cons (r : NRow) (rows : List NRow) (c : String) :
    sumCat (r :: rows) c = cellNum (Row.get r.cells c) + sumCat rows c := by
  simp [sumCat]

/-- Summing a column month-by-month over any duplicate-free family of months
that covers every record reproduces the plain column sum. -/
lemma sumCat_partition (rows : List NRow) (ms : List Int) (c : String)
    (hnd : ms.Nodup) (hcov : ∀ r ∈ rows, monthIndex r.date ∈ ms) :
    (ms.map (fun mi => sumCat (rowsInMonth rows mi) c)).sum = sumCat rows c := by
  induction rows with
  | nil =>
    rw [sumCat_nil]
    apply List.sum_eq_zero
    intro x hx
    rcases List.mem_map.mp hx with ⟨mi, _, rfl⟩
    rfl
  | cons r rest ih =>
    have hr := hcov r (List.mem_cons_self _ _)
    have hcov' : ∀ x ∈ rest, monthIndex x.date ∈ ms :=
      fun x hx => hcov x (List.mem_cons_of_mem _ hx)
    calc (ms.map (fun mi => sumCat (rowsInMonth (r :: rest) mi) c)).sum
        = (ms.map (fun mi =>
            (if monthIndex r.date = mi then cellNum (Row.get r.cells c) else 0)
              + sumCat (rowsInMonth rest mi) c)).sum := by
          apply congrArg
          apply List.map_congr_left
          intro mi _
          by_cases hm : monthIndex r.date = mi
          · simp [rowsInMonth, List.filter_cons, hm, sumCat_cons]
          · simp [rowsInMonth, List.filter_cons, hm]
      _ = (ms.map (fun mi =>
            if monthIndex r.date = mi then cellNum (Row.get r.cells c) else 0)).sum
          + (ms.map (fun mi => sumCat (rowsInMonth rest mi) c)).sum := sum_map_add ms _ _
      _ = cellNum (Row.get r.cells c) + sumCat rest c := by
          rw [sum_indicator ms _ _ hnd hr, ih hcov']
      _ = sumCat (r :: rest) c := (sumCat_cons r rest c).symm

lemma find?_pair_map (cs : List String) (f : String → Int) (c : String) (hc : c ∈ cs) :
    (cs.map (fun x => (x, f x))).find? (fun p => p.1 == c) = some (c, f c) := by
  induction cs with
  | nil => cases hc
  | cons x rest ih =>
    rw [List.map_cons, List.find?_cons]
    by_cases hx : x = c
    · subst hx; simp
    · have hbx : ((x, f x).1 == c) = false := by simp [hx]
      rw [hbx]
      rcases List.mem_cons.mp hc with rfl | hcs
      · exact absurd rfl hx
      · exact ih hcs

lemma get_mkBucket (rows : List NRow) (cats : List String) (mi : Int) (c : String)
    (hc : c ∈ cats) :
    (mkBucket rows cats mi).get c = sumCat (rowsInMonth rows mi) c := by
  unfold mkBucket Bucket.get
  rw [find?_pair_map cats _ c hc]

lemma get_mkBucket_zero (rows : List NRow) (cats : List String) (mi : Int) (c : String)
    (h : rowsInMonth rows mi = []) :
    (mkBucket rows cats mi).get c = 0 := by
  unfold mkBucket Bucket.get
  cases hf : (cats.map (fun c' => (c', sumCat (rowsInMonth rows mi) c'))).find?
      (fun p => p.1 == c) with
  | none => rfl
  | some p =>
    have hp := List.mem_of_find?_eq_some hf
    rcases List.mem_map.mp hp with ⟨x, _, rfl⟩
    simp [h, sumCat_nil]

lemma mem_monthSpan (t : NTable) (r : NRow) (hr : r ∈ t.rows) :
    monthIndex r.date ∈ monthSpan t := by
  unfold monthSpan
  have hmem : monthIndex r.date ∈ t.rows.map (fun r => monthIndex r.date) :=
    List.mem_map_of_mem _ hr
  have h1 := listMin_le _ _ hmem
  have h2 := le_listMax _ _ hmem
  refine List.mem_map.mpr
    ⟨(monthIndex r.date - listMin (t.rows.map (fun r => monthIndex r.date))).toNat, ?_, ?_⟩
  · exact List.mem_range.mpr (by omega)
  · omega

lemma monthSpan_nodup (t : NTable) : (monthSpan t).Nodup := by
  unfold monthSpan
  exact List.Nodup.map (fun a b hab => by omega) (List.nodup_range _)

lemma monthSpan_pairwise (t : NTable) : (monthSpan t).Pairwise (· < ·) := by
  unfold monthSpan
  refine List.pairwise_map.mpr ?_
  exact (List.pairwise_lt_range _).imp (fun h => by omega)

/-- The per-category total over the gap-filled monthly buckets equals the
plain column sum over the aggregated table's records. -/
lemma catTotal_resampleMS (t : NTable) (c : String) (hc : c ∈ t.numericCols) :
    catTotal (resampleMS t) c = sumCat t.rows c := by
  by_cases h : t.rows.isEmpty
  · have hnil : t.rows = [] := List.isEmpty_iff.mp h
    simp [resampleMS, h, catTotal, hnil, sumCat_nil]
  · unfold resampleMS catTotal
    rw [if_neg h, List.map_map]
    have hfun : ((fun b => Bucket.get b c) ∘ mkBucket t.rows t.numericCols)
        = fun mi => sumCat (rowsInMonth t.rows mi) c := by
      funext mi
      exact get_mkBucket t.rows t.numericCols mi c hc
    rw [hfun]
    exact sumCat_partition t.rows (monthSpan t) c (monthSpan_nodup t)
      (fun r hr => mem_monthSpan t r hr)

/-- The per-category total over the present-month buckets equals the plain
column sum over the aggregated table's records. -/
lemma catTotal_groupbyMonth (t : NTable) (cats : List String) (c : String)
    (hc : c ∈ cats) :
    catTotal (groupbyMonth t cats) c = sumCat t.rows c := by
  by_cases h : t.rows.isEmpty
  · have hnil : t.rows = [] := List.isEmpty_iff.mp h
    simp [groupbyMonth, h, catTotal, hnil, sumCat_nil]
  · unfold groupbyMonth catTotal
    rw [if_neg h, List.map_map]
    have hfun : ((fun b => Bucket.get b c) ∘ mkBucket t.rows cats)
        = fun mi => sumCat (rowsInMonth t.rows mi) c := by
      funext mi
      exact get_mkBucket t.rows cats mi c hc
    rw [hfun]
    refine sumCat_partition t.rows _ c (List.Nodup.filter _ (monthSpan_nodup t)) ?_
    intro r hr
    refine List.mem_filter.mpr ⟨mem_monthSpan t r hr, ?_⟩
    exact List.any_eq_true.mpr ⟨r, hr, by simp⟩

lemma melt_cons (bs : List Bucket) (c : String) (cs : List String) :
    melt bs (c :: cs) = bs.map (fun b => ⟨b.month, c, b.get c⟩) ++ melt bs cs := rfl

lemma melt_length (bs : List Bucket) (cats : List String) :
    (melt bs cats).length = cats.length * bs.length := by
  induction cats with
  | nil => simp [melt]
  | cons c cs ih => simp [melt_cons, ih, Nat.succ_mul, Nat.add_comm]

lemma melt_mem (bs : List Bucket) (cats : List String) (b : Bucket) (c : String)
    (hb : b ∈ bs) (hc : c ∈ cats) :
    (⟨b.month, c, b.get c⟩ : LongRow) ∈ melt bs cats := by
  induction cats with
  | nil => cases hc
  | cons c' cs ih =>
    rw [melt_cons]
    rcases List.mem_cons.mp hc with rfl | hcs
    · exact List.mem_append_left _ (List.mem_map_of_mem _ hb)
    · exact List.mem_append_right _ (ih hcs)

lemma filter_bucket_self (bs : List Bucket) (b : Bucket)
    (hnd : (bs.map Bucket.month).Nodup) (hb : b ∈ bs) :
    bs.filter (fun b' => b'.month == b.month) = [b] := by
  induction bs with
  | nil => cases hb
  | cons b0 rest ih =>
    rw [List.map_cons] at hnd
    have h1 : b0.month ∉ rest.map Bucket.month := (List.nodup_cons.mp hnd).1
    have h2 := (List.nodup_cons.mp hnd).2
    by_cases hbe : b = b0
    · subst hbe
      rw [List.filter_cons_of_pos (by simp)]
      have hnil : rest.filter (fun b' => b'.month == b.month) = [] := by
        rw [List.filter_eq_nil_iff]
        intro b' hb' hbeq
        have heq : b'.month = b.month := by simpa using hbeq
        exact h1 (heq ▸ List.mem_map_of_mem _ hb')
      rw [hnil]
    · have hbr : b ∈ rest := (List.mem_cons.mp hb).resolve_left hbe
      have hne : b0.month ≠ b.month := by
        intro he
        exact h1 (he ▸ List.mem_map_of_mem _ hbr)
      rw [List.filter_cons_of_neg (by simp [hne])]
      exact ih h2 hbr

/-- Re-aggregating the long form at one bucket's month reproduces that
bucket's across-category total. -/
lemma monthTotal_melt (bs : List Bucket) (cats : List String) (b : Bucket)
    (hnd : (bs.map Bucket.month).Nodup) (hb : b ∈ bs) :
    monthTotalOfLong (melt bs cats) b.month = bucketTotal b cats := by
  induction cats with
  | nil => rfl
  | cons c cs ih =>
    rw [melt_cons]
    unfold monthTotalOfLong at *
    rw [List.filter_append, List.map_append, List.sum_append]
    have hfst : (bs.map (fun b' => (⟨b'.month, c, b'.get c⟩ : LongRow))).filter
        (fun l => l.month == b.month) = [⟨b.month, c, b.get c⟩] := by
      rw [List.filter_map]
      have hcomp : ((fun l : LongRow => l.month == b.month) ∘
          (fun b' : Bucket => (⟨b'.month, c, b'.get c⟩ : LongRow)))
            = (fun b' : Bucket => b'.month == b.month) := rfl
      rw [hcomp, filter_bucket_self bs b hnd hb]
      rfl
    rw [hfst, ih]
    simp [bucketTotal]

lemma get_set_ne (r : Row) (c c' : String) (v : Cell) (h : c' ≠ c) :
    Row.get (Row.set r c' v) c = Row.get r c := by
  induction r with
  | nil => rfl
  | cons p rest ih =>
    rcases p with ⟨k, w⟩
    by_cases hk2 : k = c'
    · have hkc : (k == c) = false := by simp [hk2, h]
      have hkp : (k == c') = true := by simp [hk2]
      simp only [Row.set, List.map_cons, Row.get, List.find?_cons, hkp, if_true, hkc] at ih ⊢
      exact ih
    · by_cases hk1 : k = c
      · have hcc : ¬ c = c' := fun he => h he.symm
        simp [Row.set, Row.get, List.find?_cons, hk1, hcc]
      · simp [Row.set, Row.get, List.find?_cons, hk1, hk2] at ih ⊢
        exact ih

lemma normalize_length_aux (fmt : String → Option Day) (rows : List Row) :
    (rows.filterMap (fun r => (toDatetime fmt (Row.get r "Date")).map
        (fun s => (⟨s, Row.set r "Date" (Cell.dt s)⟩ : NRow)))).length
      = (rows.filter (fun r => (toDatetime fmt (Row.get r "Date")).isSome)).length := by
  induction rows with
  | nil => rfl
  | cons r rest ih =>
    rw [List.filterMap_cons, List.filter_cons]
    cases hd : toDatetime fmt (Row.get r "Date") with
    | none => simp [hd, ih]
    | some s => simp [hd, ih]

lemma normalize_sum_aux (fmt : String → Option Day) (rows : List Row) (c : String)
    (hc : c ≠ "Date") :
    sumCat (rows.filterMap (fun r => (toDatetime fmt (Row.get r "Date")).map
        (fun s => (⟨s, Row.set r "Date" (Cell.dt s)⟩ : NRow)))) c
      = ((rows.filter (fun r => (toDatetime fmt (Row.get r "Date")).isSome)).map
          (fun r => cellNum (Row.get r c))).sum := by
  induction rows with
  | nil => rfl
  | cons r rest ih =>
    rw [List.filterMap_cons, List.filter_cons]
    cases hd : toDatetime fmt (Row.get r "Date") with
    | none => simp [hd, ih]
    | some s =>
      simp [hd, sumCat_cons, ih, get_set_ne r c "Date" (Cell.dt s) (Ne.symm hc)]

lemma isNumCell_get_set_date (r : Row) (s : Stamp) :
    isNumCell (Row.get (Row.set r "Date" (Cell.dt s)) "Date") = false := by
  induction r with
  | nil => rfl
  | cons p rest ih =>
    rcases p with ⟨k, w⟩
    by_cases hp : k = "Date"
    · simp [Row.set, Row.get, List.find?_cons, hp, isNumCell]
    · simp [Row.set, Row.get, List.find?_cons, hp] at ih ⊢
      exact ih

lemma normalize_date_not_numeric (fmt : String → Option Day) (tb : Table)
    (hne : (normalize fmt tb).rows ≠ []) :
    (normalize fmt tb).numericCol "Date" = false := by
  unfold NTable.numericCol
  rw [List.all_eq_false]
  cases h : (normalize fmt tb).rows with
  | nil => exact absurd h hne
  | cons r rest =>
    refine ⟨r, List.mem_cons_self _ _, ?_⟩
    have hr : r ∈ (normalize fmt tb).rows := by rw [h]; exact List.mem_cons_self _ _
    unfold normalize at hr
    rcases List.mem_filterMap.mp hr with ⟨r0, _, hmap⟩
    rcases Option.map_eq_some'.mp hmap with ⟨s, _, rfl⟩
    simp [isNumCell_get_set_date]

lemma mem_detectCategories (t : NTable) (excl : List String) (c : String) :
    c ∈ detectCategories t excl ↔
      (c ∈ t.columns ∧ t.numericCol c = true ∧ c ∉ excl) := by
  unfold detectCategories
  have hcf : (excl.contains c = false) ↔ c ∉ excl := by
    constructor
    · intro hf hmem
      rw [(contains_iff excl c).mpr hmem] at hf
      cases hf
    · intro hn
      cases hcon : excl.contains c with
      | false => rfl
      | true => exact absurd ((contains_iff excl c).mp hcon) hn
  simp [List.mem_filter, Bool.and_eq_true, Bool.not_eq_true', hcf]

lemma referral_sources_eq_detect (t : NTable) :
    referral_sources t = detectCategories t ["Date"] := by
  unfold referral_sources detectCategories
  apply List.filter_congr
  intro c _
  cases hn : t.numericCol c with
  | false => simp [hn]
  | true =>
    simp only [hn, Bool.and_true, Bool.true_and]
    cases hd : (c == "Date") with
    | false =>
      have : c ≠ "Date" := by simpa using hd
      simp [this]
    | true =>
      have : c = "Date" := by simpa using hd
      simp [this]

lemma token_source_cols_eq_detect (t : NTable) :
    token_source_cols t = detectCategories t ["Total"] := by
  unfold token_source_cols detectCategories
  apply List.filter_congr
  intro c _
  cases hn : t.numericCol c with
  | false => simp [hn]
  | true =>
    simp only [hn, Bool.true_and]
    cases hd : (c == "Total") with
    | false =>
      have : c ≠ "Total" := by simpa using hd
      simp [this]
    | true =>
      have : c = "Total" := by simpa using hd
      simp [this]

lemma resample_months (t : NTable) (h : ¬ t.rows.isEmpty = true) :
    (resampleMS t).map Bucket.month = monthSpan t := by
  unfold resampleMS
  rw [if_neg h, List.map_map]
  have hfun : (Bucket.month ∘ mkBucket t.rows t.numericCols) = fun mi => mi := rfl
  rw [hfun, List.map_id']

lemma groupby_months (t : NTable) (h : ¬ t.rows.isEmpty = true) (cats : List String) :
    (groupbyMonth t cats).map Bucket.month
      = (monthSpan t).filter (fun mi => t.rows.any (fun r => monthIndex r.date == mi)) := by
  unfold groupbyMonth
  rw [if_neg h, List.map_map]
  have hfun : (Bucket.month ∘ mkBucket t.rows cats) = fun mi => mi := rfl
  rw [hfun, List.map_id']

/-- A month index appears among the grouped buckets exactly when some record
of the table falls in that month. -/
lemma mem_groupby_months (t : NTable) (cats : List String) (mi : Int) :
    mi ∈ (groupbyMonth t cats).map Bucket.month ↔
      ∃ r ∈ t.rows, monthIndex r.date = mi := by
  by_cases h : t.rows.isEmpty = true
  · have hnil : t.rows = [] := List.isEmpty_iff.mp h
    simp [groupbyMonth, h, hnil]
  · rw [groupby_months t h cats, List.mem_filter]
    constructor
    · rintro ⟨_, hany⟩
      rcases List.any_eq_true.mp hany with ⟨r, hr, hbeq⟩
      exact ⟨r, hr, by simpa using hbeq⟩
    · rintro ⟨r, hr, rfl⟩
      exact ⟨mem_monthSpan t r hr, List.any_eq_true.mpr ⟨r, hr, by simp⟩⟩

lemma normalize_rows_nil (fmt : String → Option Day) (t : Table) (h : t.rows = []) :
    (normalize fmt t).rows = [] := by
  unfold normalize
  rw [h]
  rfl

lemma cleanYMD_rows_nil (t : Table) (h : t.rows = []) : (cleanYMD t).rows = [] :=
  normalize_rows_nil parseYMD t h

lemma tokensPrepared_rows_nil (t : Table) (h : t.rows = []) :
    (tokensPrepared t).rows = [] := by
  unfold tokensPrepared stripTime
  rw [normalize_rows_nil parseMDY t h]
  rfl

lemma filterOnAfter_rows_nil (t : NTable) (b : Stamp) (h : t.rows = []) :
    (filterOnAfter t b).rows = [] := by
  unfold filterOnAfter
  rw [h]
  rfl

lemma filterAfter_rows_nil (t : NTable) (b : Stamp) (h : t.rows = []) :
    (filterAfter t b).rows = [] := by
  unfold filterAfter
  rw [h]
  rfl

lemma groupbyMonth_nil (t : NTable) (cats : List String) (h : t.rows = []) :
    groupbyMonth t cats = [] := by
  unfold groupbyMonth
  rw [if_pos (by rw [h]; rfl)]

lemma resampleMS_nil (t : NTable) (h : t.rows = []) : resampleMS t = [] := by
  unfold resampleMS
  rw [if_pos (by rw [h]; rfl)]

lemma catTotal_nil (c : String) : catTotal [] c = 0 := rfl

/-- The load aborts exactly when one of the four required tables is missing. -/
lemma loadTables_isOk_iff (wb : Workbook) :
    (loadTables wb).isOk = true ↔
      ((dictGet (strippedSheets wb) "Referrals").isSome = true
        ∧ (dictGet (strippedSheets wb) "Wallets Created").isSome = true
        ∧ (dictGet (strippedSheets wb) "POL Data").isSome = true
        ∧ (readSheet wb "Tokens per source").isSome = true) := by
  unfold loadTables
  cases h1 : dictGet (strippedSheets wb) "Referrals" with
  | none => simp [h1, Except.isOk, Except.toBool]
  | some r =>
    cases h2 : dictGet (strippedSheets wb) "Wallets Created" with
    | none => simp [h2, Except.isOk, Except.toBool]
    | some w =>
      cases h3 : dictGet (strippedSheets wb) "POL Data" with
      | none => simp [h3, Except.isOk, Except.toBool]
      | some f =>
        cases h4 : readSheet wb "Tokens per source" with
        | none => simp [h4, Except.isOk, Except.toBool]
        | some tk => simp [h4, Except.isOk, Except.toBool]

/-- A fresh allocation never disturbs what an existing id refers to. -/
lemma alloc_get_preserve (h : PyHeap) (i : Nat) (fr f : Frame)
    (hg : h.get i = some fr) : (h.alloc f).1.get i = some fr := by
  unfold PyHeap.get PyHeap.alloc at *
  rcases Option.map_eq_some'.mp hg with ⟨p, hp, rfl⟩
  rw [List.find?_append, hp]
  rfl

lemma addReferrals_rows_nil (t : NTable) (h : t.rows = []) :
    (addReferralsColumn t).rows = [] := by
  unfold addReferralsColumn
  split
  · rw [h]; rfl
  · rw [h]; rfl

/-! ## Concrete fixtures -/

/-- A wallet-creation table with records only in January and March 2025. -/
def walletJanMar : Table :=
  { columns := ["Date", "Android", "iOS", "Web"],
    rows := [
      [("Date", Cell.dt ⟨⟨2025, 1, 5⟩, 0⟩), ("Android", Cell.num 3),
        ("iOS", Cell.num 1), ("Web", Cell.num 0)],
      [("Date", Cell.dt ⟨⟨2025, 3, 7⟩, 0⟩), ("Android", Cell.num 2),
        ("iOS", Cell.num 0), ("Web", Cell.num 4)]] }

/-- A token-source table with text dates in January and March 2025. -/
def tokensJanMar : Table :=
  { columns := ["Date", "A", "B"],
    rows := [
      [("Date", Cell.text "01-05-2025"), ("A", Cell.num 1), ("B", Cell.num 2)],
      [("Date", Cell.text "03-07-2025"), ("A", Cell.num 10), ("B", Cell.num 20)]] }

/-- A token-source table carrying a stored Total column that disagrees with
the sum of its source columns (Total 5 versus A 1). -/
def tokensStoredTotal : Table :=
  { columns := ["Date", "A", "Total"],
    rows := [
      [("Date", Cell.dt ⟨⟨2025, 1, 5⟩, 0⟩), ("A", Cell.num 1), ("Total", Cell.num 5)]] }

/-- Five token records of which two carry unparsable dates
(month-day-year expected). -/
def tokensFiveRows : Table :=
  { columns := ["Date", "A"],
    rows := [
      [("Date", Cell.text "01-05-2025"), ("A", Cell.num 1)],
      [("Date", Cell.text "garbage"), ("A", Cell.num 2)],
      [("Date", Cell.text "04-05-2025"), ("A", Cell.num 4)],
      [("Date", Cell.text "13-05-2025"), ("A", Cell.num 8)],
      [("Date", Cell.text "02-06-2025"), ("A", Cell.num 16)]] }

/-- A token-source table with one record before and one after 2025-01-01. -/
def tokensMixedDates : Table :=
  { columns := ["Date", "A"],
    rows := [
      [("Date", Cell.dt ⟨⟨2024, 6, 1⟩, 0⟩), ("A", Cell.num 7)],
      [("Date", Cell.dt ⟨⟨2025, 1, 10⟩, 0⟩), ("A", Cell.num 2)]] }

/-- A wallet-creation table whose single record is dated noon, 2024-12-31. -/
def walletNoonDec31 : Table :=
  { columns := ["Date", "Android", "iOS", "Web"],
    rows := [
      [("Date", Cell.dt ⟨⟨2024, 12, 31⟩, 43200⟩), ("Android", Cell.num 1),
        ("iOS", Cell.num 0), ("Web", Cell.num 0)]] }

/-- A referral table with a Date column, two source columns and one record. -/
def referralSmall : Table :=
  { columns := ["Date", "Twitter", "Email"],
    rows := [
      [("Date", Cell.text "2025-01-05"), ("Twitter", Cell.num 3), ("Email", Cell.num 4)]] }

/-- A fee table with one record. -/
def feeSmall : Table :=
  { columns := ["Date", "TxnFee(POL)"],
    rows := [
      [("Date", Cell.text "2025-02-01"), ("TxnFee(POL)", Cell.num 6)]] }

def emptyWallet : Table := { columns := ["Date", "Android", "iOS", "Web"], rows := [] }
def emptyReferral : Table := { columns := ["Date", "Twitter"], rows := [] }
def emptyFee : Table := { columns := ["Date", "TxnFee(POL)"], rows := [] }
def emptyTokens : Table := { columns := ["Date", "A"], rows := [] }

/-- A workbook whose four sheets all carry exact names and empty tables. -/
def wbEmpty : Workbook :=
  { sheets := [("Referrals", emptyReferral), ("Wallets Created", emptyWallet),
               ("POL Data", emptyFee), ("Tokens per source", emptyTokens)] }

/-- Whitespace around the three dict-looked-up sheets, exact token name. -/
def wbWhitespace : Workbook :=
  { sheets := [(" Referrals ", referralSmall), (" Wallets Created", walletJanMar),
               ("POL Data ", feeSmall), ("Tokens per source", tokensJanMar)] }

/-- The same whitespace, now also around the token sheet's name. -/
def wbWhitespaceTok : Workbook :=
  { sheets := [(" Referrals ", referralSmall), (" Wallets Created", walletJanMar),
               ("POL Data ", feeSmall), (" Tokens per source", tokensJanMar)] }

/-- A clean workbook used for the object-identity (mutation) scenario. -/
def wbState : Workbook :=
  { sheets := [("Referrals", referralSmall), ("Wallets Created", walletJanMar),
               ("POL Data", feeSmall), ("Tokens per source", tokensJanMar)] }

/-- The module state right after loading `wbState` (before the preparation). -/
def sState : ModuleState :=
  (loadState wbState).getD
    { heap := { entries := [], next := 0 }, dfDict := [],
      referralId := 0, walletId := 0, feeId := 0, tokensId := 0 }

/-! ## Claim theorems -/

/-- C1 counterexample: the wallet domain's monthly aggregation (a plain
groupby, src/app.py lines 73-74) on a filtered dataset with records only in
January 2025 (month index 24300) and March 2025 (24302) produces two buckets
and omits February (24301) instead of zero-filling it, contradicting the
claim that every domain's aggregation emits one bucket per calendar month of
the span. -/
theorem C1_counterexample :
    (monthly_wallets (cleanYMD walletJanMar)).map Bucket.month = [24300, 24302]
    ∧ (monthly_wallets (cleanYMD walletJanMar)).length = 2
    ∧ ¬ (monthly_wallets (cleanYMD walletJanMar)).length = 3
    ∧ ¬ ((24301 : Int) ∈ (monthly_wallets (cleanYMD walletJanMar)).map Bucket.month) := by
  decide

/-- C1 (amended): only the token-source aggregation (`resample("MS")`) emits
one chronologically ordered bucket per calendar month from the month of the
earliest record to the month of the latest record inclusive, with months
having no records zero-filled in every category; the wallet, referral and fee
aggregations (`groupby("Month")`) emit buckets exactly for the months that
contain at least one record, in chronological order, omitting empty months. -/
theorem C1_monthly_aggregation (t : NTable) (cats : List String)
    (h : ¬ t.rows.isEmpty = true) :
    ((resampleMS t).map Bucket.month = monthSpan t
      ∧ ((resampleMS t).map Bucket.month).Pairwise (· < ·)
      ∧ (∃ r ∈ t.rows,
          monthIndex r.date = listMin (t.rows.map (fun r => monthIndex r.date)))
      ∧ (∃ r ∈ t.rows,
          monthIndex r.date = listMax (t.rows.map (fun r => monthIndex r.date)))
      ∧ (∀ r ∈ t.rows,
          listMin (t.rows.map (fun r => monthIndex r.date)) ≤ monthIndex r.date
            ∧ monthIndex r.date ≤ listMax (t.rows.map (fun r => monthIndex r.date)))
      ∧ (∀ b ∈ resampleMS t,
          (∀ r ∈ t.rows, monthIndex r.date ≠ b.month) → ∀ c, b.get c = 0))
    ∧ (((groupbyMonth t cats).map Bucket.month).Pairwise (· < ·)
      ∧ ∀ mi : Int, mi ∈ (groupbyMonth t cats).map Bucket.month ↔
          ∃ r ∈ t.rows, monthIndex r.date = mi) := by
  have hne : t.rows ≠ [] := fun hnil => h (by rw [hnil]; rfl)
  have hmapne : t.rows.map (fun r => monthIndex r.date) ≠ [] := by
    cases hr : t.rows with
    | nil => exact absurd hr hne
    | cons a l => simp
  refine ⟨⟨resample_months t h, ?_, ?_, ?_, ?_, ?_⟩, ?_, ?_⟩
  · rw [resample_months t h]
    exact monthSpan_pairwise t
  · exact List.mem_map.mp (listMin_mem _ hmapne)
  · exact List.mem_map.mp (listMax_mem _ hmapne)
  · intro r hr
    exact ⟨listMin_le _ _ (List.mem_map_of_mem _ hr),
      le_listMax _ _ (List.mem_map_of_mem _ hr)⟩
  · intro b hb hno c
    unfold resampleMS at hb
    rw [if_neg h] at hb
    rcases List.mem_map.mp hb with ⟨mi, _, rfl⟩
    apply get_mkBucket_zero
    unfold rowsInMonth
    rw [List.filter_eq_nil_iff]
    intro r hr hbeq
    exact hno r hr (by simpa using hbeq)
  · rw [groupby_months t h cats]
    exact List.Pairwise.sublist (List.filter_sublist _) (monthSpan_pairwise t)
  · exact fun mi => mem_groupby_months t cats mi

/-- C1 witness: the amended statement instantiated at the concrete January
and March 2025 token table and the wallet category list. -/
theorem C1_witness :
    (¬ (tokensPrepared tokensJanMar).rows.isEmpty = true)
    ∧ (((resampleMS (tokensPrepared tokensJanMar)).map Bucket.month
          = monthSpan (tokensPrepared tokensJanMar)
      ∧ ((resampleMS (tokensPrepared tokensJanMar)).map Bucket.month).Pairwise (· < ·)
      ∧ (∃ r ∈ (tokensPrepared tokensJanMar).rows,
          monthIndex r.date
            = listMin ((tokensPrepared tokensJanMar).rows.map (fun r => monthIndex r.date)))
      ∧ (∃ r ∈ (tokensPrepared tokensJanMar).rows,
          monthIndex r.date
            = listMax ((tokensPrepared tokensJanMar).rows.map (fun r => monthIndex r.date)))
      ∧ (∀ r ∈ (tokensPrepared tokensJanMar).rows,
          listMin ((tokensPrepared tokensJanMar).rows.map (fun r => monthIndex r.date))
              ≤ monthIndex r.date
            ∧ monthIndex r.date
              ≤ listMax ((tokensPrepared tokensJanMar).rows.map (fun r => monthIndex r.date)))
      ∧ (∀ b ∈ resampleMS (tokensPrepared tokensJanMar),
          (∀ r ∈ (tokensPrepared tokensJanMar).rows, monthIndex r.date ≠ b.month) →
            ∀ c, b.get c = 0))
    ∧ (((groupbyMonth (tokensPrepared tokensJanMar) walletCols).map Bucket.month).Pairwise
          (· < ·)
      ∧ ∀ mi : Int,
          mi ∈ (groupbyMonth (tokensPrepared tokensJanMar) walletCols).map Bucket.month ↔
            ∃ r ∈ (tokensPrepared tokensJanMar).rows, monthIndex r.date = mi)) :=
  ⟨by decide, C1_monthly_aggregation (tokensPrepared tokensJanMar) walletCols (by decide)⟩

/-- C2 counterexample: with a stored Total column that disagrees with its
source columns (Total 5 but A 1 on the single record), the displayed token
grand total is the stored column's sum (5), which differs from the sum of the
detected per-category totals (1), contradicting the claim's "including when
the source table carries a precomputed Total column". -/
theorem C2_counterexample :
    total_tokens (tokensPrepared tokensStoredTotal) = 5
    ∧ grandTotal (monthly_tokens (tokensPrepared tokensStoredTotal))
        (token_source_cols (tsdf (tokensPrepared tokensStoredTotal))) = 1
    ∧ ¬ total_tokens (tokensPrepared tokensStoredTotal)
        = grandTotal (monthly_tokens (tokensPrepared tokensStoredTotal))
            (token_source_cols (tsdf (tokensPrepared tokensStoredTotal))) := by
  decide

/-- C2 (amended): over any bucket sequence the grand total (sum of per-category
totals) equals the sum of per-month totals; and the displayed token grand
total equals the grand total of the detected source categories whenever the
filtered token frame carries no numeric stored Total column. When it does,
the displayed total is the stored column's sum, which need not agree. -/
theorem C2_totals_consistency (bs : List Bucket) (cats : List String) (tok : NTable)
    (hno : ¬ (tsdf tok).numericCols.contains "Total" = true) :
    grandTotal bs cats = (bs.map (fun b => bucketTotal b cats)).sum
    ∧ total_tokens tok
        = grandTotal (monthly_tokens tok) (token_source_cols (tsdf tok)) := by
  constructor
  · unfold grandTotal catTotal bucketTotal
    exact sum_swap cats bs (fun c b => b.get c)
  · unfold total_tokens
    rw [if_neg hno]
    unfold grandTotal catTotal bucketTotal
    exact (sum_swap (token_source_cols (tsdf tok)) (monthly_tokens tok)
      (fun c b => b.get c)).symm

/-- C2 witness: the amended statement instantiated at the concrete wallet
buckets and the Total-free token table. -/
theorem C2_witness :
    (¬ (tsdf (tokensPrepared tokensJanMar)).numericCols.contains "Total" = true)
    ∧ (grandTotal (monthly_wallets (cleanYMD walletJanMar)) walletCols
        = ((monthly_wallets (cleanYMD walletJanMar)).map
            (fun b => bucketTotal b walletCols)).sum
      ∧ total_tokens (tokensPrepared tokensJanMar)
          = grandTotal (monthly_tokens (tokensPrepared tokensJanMar))
              (token_source_cols (tsdf (tokensPrepared tokensJanMar)))) :=
  ⟨by decide, C2_totals_consistency (monthly_wallets (cleanYMD walletJanMar)) walletCols
    (tokensPrepared tokensJanMar) (by decide)⟩

/-- C3 counterexample: a wallet record timestamped noon on 2024-12-31 is
retained by the wallet window filter (`> "2024-12-31"` compares the full
timestamp against midnight), although its calendar day, with the time
discarded, is not strictly after 2024-12-31 — so the claimed day-granular
"strictly after" reading is false for the wallet/fee domains. -/
theorem C3_counterexample :
    ((cleanYMD walletNoonDec31).rows.map (fun r => r.date)) = [⟨⟨2024, 12, 31⟩, 43200⟩]
    ∧ (wallet_df_filtered (cleanYMD walletNoonDec31)).rows.length = 1
    ∧ (∀ r ∈ (cleanYMD walletNoonDec31).rows,
        Day.ltb ⟨2024, 12, 31⟩ r.date.day = false)
    ∧ ¬ (wallet_df_filtered (cleanYMD walletNoonDec31)).rows = [] := by
  decide

/-- C3 (amended): the token and referral filters (`>= "2025-01-01"`) retain a
record exactly when its calendar day is on or after 2025-01-01 — a midnight
lower bound compared with `≤` is day-granular, so any time-of-day component
is irrelevant there; the wallet and fee filters (`> "2024-12-31"`) retain a
record exactly when its day is strictly after 2024-12-31 OR its day is
2024-12-31 itself with a nonzero time-of-day, so time is not discarded. -/
theorem C3_window_filters (tokRaw : Table) (rN w f : NTable) (r : NRow) :
    (r ∈ (tsdf (tokensPrepared tokRaw)).rows ↔
      (r ∈ (tokensPrepared tokRaw).rows ∧ Day.leb ⟨2025, 1, 1⟩ r.date.day = true))
    ∧ (r ∈ (rdf rN).rows ↔
      (r ∈ (addReferralsColumn rN).rows ∧ Day.leb ⟨2025, 1, 1⟩ r.date.day = true))
    ∧ (r ∈ (wallet_df_filtered w).rows ↔
      (r ∈ w.rows ∧ (Day.ltb ⟨2024, 12, 31⟩ r.date.day = true
        ∨ ((⟨2024, 12, 31⟩ : Day) = r.date.day ∧ 0 < r.date.secs))))
    ∧ (r ∈ (fdf f).rows ↔
      (r ∈ f.rows ∧ (Day.ltb ⟨2024, 12, 31⟩ r.date.day = true
        ∨ ((⟨2024, 12, 31⟩ : Day) = r.date.day ∧ 0 < r.date.secs)))) := by
  have hle : Stamp.leb jan1_2025 r.date = Day.leb ⟨2025, 1, 1⟩ r.date.day :=
    stamp_leb_day jan1_2025 r.date rfl
  have hlt := stamp_ltb_day dec31_2024 r.date rfl
  refine ⟨?_, ?_, ?_, ?_⟩
  · rw [tsdf, filterOnAfter, List.mem_filter, hle]
  · rw [rdf, filterOnAfter, List.mem_filter, hle]
  · rw [wallet_df_filtered, filterAfter, List.mem_filter]
    exact and_congr_right (fun _ => hlt)
  · rw [fdf, filterAfter, List.mem_filter]
    exact and_congr_right (fun _ => hlt)

/-- C4: date normalization keeps exactly the records whose Date cell converts
under the domain's format (text parses, datetimes pass through; everything
else coerces to NaT and is silently dropped — the function is total, so no
error is possible), and the downstream column sum ranges over exactly the
retained records at their original field values. -/
theorem C4_date_normalization (fmt : String → Option Day) (t : Table) (c : String)
    (hc : c ≠ "Date") :
    (normalize fmt t).rows.length
        = (t.rows.filter (fun r => (toDatetime fmt (Row.get r "Date")).isSome)).length
    ∧ sumCat (normalize fmt t).rows c
        = ((t.rows.filter (fun r => (toDatetime fmt (Row.get r "Date")).isSome)).map
            (fun r => cellNum (Row.get r c))).sum :=
  ⟨normalize_length_aux fmt t.rows, normalize_sum_aux fmt t.rows c hc⟩

/-- C4 witness: on the five-record table with two unparsable dates, the
normalized dataset has exactly the three parsable records and its total 21 is
the sum of those records' values (1 + 4 + 16). -/
theorem C4_witness :
    ("A" ≠ "Date")
    ∧ ((normalize parseMDY tokensFiveRows).rows.length
          = (tokensFiveRows.rows.filter
              (fun r => (toDatetime parseMDY (Row.get r "Date")).isSome)).length
      ∧ sumCat (normalize parseMDY tokensFiveRows).rows "A"
          = ((tokensFiveRows.rows.filter
              (fun r => (toDatetime parseMDY (Row.get r "Date")).isSome)).map
                (fun r => cellNum (Row.get r "A"))).sum)
    ∧ (normalize parseMDY tokensFiveRows).rows.length = 3
    ∧ sumCat (normalize parseMDY tokensFiveRows).rows "A" = 21 :=
  ⟨by decide, C4_date_normalization parseMDY tokensFiveRows "A" (by decide),
    by decide, by decide⟩

/-- C5: category detection returns exactly the in-scope fields that are
uniformly numeric across all records and not in the excluded set, as a
sublist of the column list (first-seen order); it is a pure function, so two
runs on the same inputs agree; the two call sites (referral line 30, token
lines 37-39) are instances of the same detector with excluded sets containing
the Date name and the stored Total name respectively; and on a normalized
table with at least one record the Date column is never detected, its cells
being datetimes rather than numbers. -/
theorem C5_category_detection (t : NTable) (excl : List String) (c : String)
    (fmt : String → Option Day) (tb : Table)
    (hne : (normalize fmt tb).rows ≠ []) :
    (c ∈ detectCategories t excl ↔
      (c ∈ t.columns ∧ t.numericCol c = true ∧ c ∉ excl))
    ∧ (detectCategories t excl).Sublist t.columns
    ∧ detectCategories t excl = detectCategories t excl
    ∧ referral_sources t = detectCategories t ["Date"]
    ∧ token_source_cols t = detectCategories t ["Total"]
    ∧ "Date" ∉ token_source_cols (normalize fmt tb) := by
  refine ⟨mem_detectCategories t excl c, List.filter_sublist _, rfl,
    referral_sources_eq_detect t, token_source_cols_eq_detect t, ?_⟩
  intro hmem
  have hdet := (mem_detectCategories (normalize fmt tb) ["Total"] "Date").mp
    ((token_source_cols_eq_detect (normalize fmt tb)) ▸ hmem)
  rcases hdet with ⟨_, hnum, _⟩
  rw [normalize_date_not_numeric fmt tb hne] at hnum
  cases hnum

/-- C5 witness: the detection statement instantiated at the normalized
referral table, the Date-exclusion set and the Twitter column. -/
theorem C5_witness :
    ((cleanYMD referralSmall).rows ≠ [])
    ∧ (("Twitter" ∈ detectCategories (cleanYMD referralSmall) ["Date"] ↔
        ("Twitter" ∈ (cleanYMD referralSmall).columns
          ∧ (cleanYMD referralSmall).numericCol "Twitter" = true
          ∧ "Twitter" ∉ ["Date"]))
      ∧ (detectCategories (cleanYMD referralSmall) ["Date"]).Sublist
          (cleanYMD referralSmall).columns
      ∧ detectCategories (cleanYMD referralSmall) ["Date"]
          = detectCategories (cleanYMD referralSmall) ["Date"]
      ∧ referral_sources (cleanYMD referralSmall)
          = detectCategories (cleanYMD referralSmall) ["Date"]
      ∧ token_source_cols (cleanYMD referralSmall)
          = detectCategories (cleanYMD referralSmall) ["Total"]
      ∧ "Date" ∉ token_source_cols (normalize parseYMD referralSmall)) :=
  ⟨by decide, C5_category_detection (cleanYMD referralSmall) ["Date"] "Twitter"
    parseYMD referralSmall (by decide)⟩

/-- C6 counterexample: the lifetime totals-by-source bundle (src/app.py line
172) sums the whole normalized token table, not the window-filtered one: with
a record of 7 dated 2024-06-01 and a record of 2 dated 2025-01-10, the bundle
reports 9 for source A while the sum over records on or after 2025-01-01 is
2 — contradicting the claim that every per-source token total sums only
records on or after 2025-01-01. -/
theorem C6_counterexample :
    total_tokens_by_source (tokensPrepared tokensMixedDates) = [("A", 9)]
    ∧ sumCat (tsdf (tokensPrepared tokensMixedDates)).rows "A" = 2
    ∧ ¬ total_tokens_by_source (tokensPrepared tokensMixedDates)
        = [("A", sumCat (tsdf (tokensPrepared tokensMixedDates)).rows "A")] := by
  decide

/-- C6 (amended): per-category totals over the monthly aggregates do sum
exactly the records of the aggregated (window-filtered) table — for both the
groupby and the resample aggregator — but every entry of the lifetime
totals-by-source bundle is the sum over the whole normalized token table,
regardless of the 2025-01-01 window. -/
theorem C6_per_category_totals (t : NTable) (cats : List String) (c : String)
    (hc : c ∈ cats) :
    catTotal (groupbyMonth t cats) c = sumCat t.rows c
    ∧ (∀ c2 ∈ t.numericCols, catTotal (resampleMS t) c2 = sumCat t.rows c2)
    ∧ (∀ tok : NTable, ∀ p ∈ total_tokens_by_source tok,
        p.2 = sumCat tok.rows p.1) := by
  refine ⟨catTotal_groupbyMonth t cats c hc,
    fun c2 hc2 => catTotal_resampleMS t c2 hc2, ?_⟩
  intro tok p hp
  rcases List.mem_map.mp hp with ⟨c0, _, rfl⟩
  rfl

/-- C6 witness: the amended statement instantiated at the filtered wallet
table and the Android column. -/
theorem C6_witness :
    ("Android" ∈ walletCols)
    ∧ (catTotal (groupbyMonth (wallet_df_filtered (cleanYMD walletJanMar)) walletCols)
          "Android"
        = sumCat (wallet_df_filtered (cleanYMD walletJanMar)).rows "Android"
      ∧ (∀ c2 ∈ (wallet_df_filtered (cleanYMD walletJanMar)).numericCols,
          catTotal (resampleMS (wallet_df_filtered (cleanYMD walletJanMar))) c2
            = sumCat (wallet_df_filtered (cleanYMD walletJanMar)).rows c2)
      ∧ (∀ tok : NTable, ∀ p ∈ total_tokens_by_source tok,
          p.2 = sumCat tok.rows p.1)) :=
  ⟨by decide, C6_per_category_totals (wallet_df_filtered (cleanYMD walletJanMar))
    walletCols "Android" (by decide)⟩

/-- C7: melting a bucket sequence emits exactly one long row per
(category, bucket) pair, each pair's row carrying that bucket's value for
that category unchanged, and re-aggregating the long form by month (summing
the value column) reproduces each bucket's across-category total exactly. -/
theorem C7_pivot_round_trip (bs : List Bucket) (cats : List String) (b : Bucket)
    (c : String) (hnd : (bs.map Bucket.month).Nodup) (hb : b ∈ bs) (hc : c ∈ cats) :
    (melt bs cats).length = cats.length * bs.length
    ∧ (⟨b.month, c, b.get c⟩ : LongRow) ∈ melt bs cats
    ∧ monthTotalOfLong (melt bs cats) b.month = bucketTotal b cats :=
  ⟨melt_length bs cats, melt_mem bs cats b c hb hc, monthTotal_melt bs cats b hnd hb⟩

/-- C7 witness: the pivot statement instantiated at the concrete wallet
buckets, their January 2025 bucket, and the Android category. -/
theorem C7_witness :
    ((monthly_wallets (cleanYMD walletJanMar)).map Bucket.month).Nodup
    ∧ (⟨24300, [("Android", 3), ("iOS", 1), ("Web", 0)]⟩ : Bucket)
        ∈ monthly_wallets (cleanYMD walletJanMar)
    ∧ ("Android" ∈ walletCols)
    ∧ ((melt (monthly_wallets (cleanYMD walletJanMar)) walletCols).length
          = walletCols.length * (monthly_wallets (cleanYMD walletJanMar)).length
      ∧ (⟨(⟨24300, [("Android", 3), ("iOS", 1), ("Web", 0)]⟩ : Bucket).month, "Android",
            (⟨24300, [("Android", 3), ("iOS", 1), ("Web", 0)]⟩ : Bucket).get "Android"⟩
          : LongRow) ∈ melt (monthly_wallets (cleanYMD walletJanMar)) walletCols
      ∧ monthTotalOfLong (melt (monthly_wallets (cleanYMD walletJanMar)) walletCols)
            (⟨24300, [("Android", 3), ("iOS", 1), ("Web", 0)]⟩ : Bucket).month
          = bucketTotal (⟨24300, [("Android", 3), ("iOS", 1), ("Web", 0)]⟩ : Bucket)
              walletCols) :=
  ⟨by decide, by decide, by decide,
    C7_pivot_round_trip (monthly_wallets (cleanYMD walletJanMar)) walletCols
      ⟨24300, [("Android", 3), ("iOS", 1), ("Web", 0)]⟩ "Android"
      (by decide) (by decide) (by decide)⟩

/-- C8: the load succeeds exactly when all four required tables are present
(the Except value short-circuits on the first missing one, before any
aggregate exists), while tables that are present but empty flow through the
whole pipeline and yield zero totals in every domain. -/
theorem C8_required_tables (wb : Workbook) (r w f tok : Table)
    (hr : r.rows = []) (hw : w.rows = []) (hf : f.rows = []) (htok : tok.rows = []) :
    ((loadTables wb).isOk = true ↔
      ((dictGet (strippedSheets wb) "Referrals").isSome = true
        ∧ (dictGet (strippedSheets wb) "Wallets Created").isSome = true
        ∧ (dictGet (strippedSheets wb) "POL Data").isSome = true
        ∧ (readSheet wb "Tokens per source").isSome = true))
    ∧ total_tokens (tokensPrepared tok) = 0
    ∧ (∀ p ∈ platform_totals (cleanYMD w), p.2 = 0)
    ∧ (∀ p ∈ referral_totals (cleanYMD r), p.2 = 0)
    ∧ total_fee (cleanYMD f) = 0 := by
  refine ⟨loadTables_isOk_iff wb, ?_, ?_, ?_, ?_⟩
  · have h1 : (tsdf (tokensPrepared tok)).rows = [] :=
      filterOnAfter_rows_nil _ _ (tokensPrepared_rows_nil tok htok)
    unfold total_tokens monthly_tokens
    rw [resampleMS_nil _ h1]
    split <;> rfl
  · have h2 : monthly_wallets (cleanYMD w) = [] :=
      groupbyMonth_nil _ _ (filterAfter_rows_nil _ _ (cleanYMD_rows_nil w hw))
    intro p hp
    unfold platform_totals at hp
    rw [h2] at hp
    rcases List.mem_map.mp hp with ⟨c0, _, rfl⟩
    rfl
  · have h3 : referral_by_source (cleanYMD r) = [] := by
      unfold referral_by_source rdf
      exact groupbyMonth_nil _ _ (filterOnAfter_rows_nil _ _
        (addReferrals_rows_nil _ (cleanYMD_rows_nil r hr)))
    intro p hp
    unfold referral_totals at hp
    rw [h3] at hp
    rcases List.mem_map.mp hp with ⟨c0, _, rfl⟩
    rfl
  · have h4 : monthly_fee (cleanYMD f) = [] :=
      groupbyMonth_nil _ _ (filterAfter_rows_nil _ _ (cleanYMD_rows_nil f hf))
    unfold total_fee
    rw [h4]
    rfl

/-- C8 witness: the statement instantiated at a workbook whose four sheets are
present with header rows only. -/
theorem C8_witness :
    (emptyReferral.rows = [] ∧ emptyWallet.rows = [] ∧ emptyFee.rows = []
      ∧ emptyTokens.rows = [])
    ∧ (((loadTables wbEmpty).isOk = true ↔
        ((dictGet (strippedSheets wbEmpty) "Referrals").isSome = true
          ∧ (dictGet (strippedSheets wbEmpty) "Wallets Created").isSome = true
          ∧ (dictGet (strippedSheets wbEmpty) "POL Data").isSome = true
          ∧ (readSheet wbEmpty "Tokens per source").isSome = true))
      ∧ total_tokens (tokensPrepared emptyTokens) = 0
      ∧ (∀ p ∈ platform_totals (cleanYMD emptyWallet), p.2 = 0)
      ∧ (∀ p ∈ referral_totals (cleanYMD emptyReferral), p.2 = 0)
      ∧ total_fee (cleanYMD emptyFee) = 0) :=
  ⟨⟨rfl, rfl, rfl, rfl⟩,
    C8_required_tables wbEmpty emptyReferral emptyWallet emptyFee emptyTokens
      rfl rfl rfl rfl⟩

/-- C9 counterexample: in the object-identity model of the module prologue,
the heap slot that both the sheet dict and the `referral_df` binding refer to
holds the raw Referrals table right after loading, but the preparation stage
(lines 25-31: in-place `to_datetime` + `dropna(inplace=True)` and the
Referrals-column assignment) overwrites that same slot — the previously
created dataset does not stay unchanged, contradicting the no-mutation
claim. -/
theorem C9_counterexample :
    (loadState wbState).map (fun s => s.heap.get s.referralId)
        = some (some (Frame.raw referralSmall))
    ∧ ¬ ((loadState wbState).map (fun s => (prepState s).heap.get s.referralId)
        = some (some (Frame.raw referralSmall))) := by
  decide

/-- C9 (amended): the load-time preparation mutates the loaded frames in
place (see the counterexample), but the `create_figures` stages do not: each
window filter works on a fresh `.copy()`, so the body only allocates new
frame objects and every pre-existing heap entry — every previously created
dataset — is left exactly as it was. -/
theorem C9_create_figures_no_mutation (s : ModuleState) (i : Nat) (fr : Frame)
    (h : s.heap.get i = some fr) :
    (createFiguresState s).heap.get i = some fr := by
  exact alloc_get_preserve _ _ _ _ (alloc_get_preserve _ _ _ _
    (alloc_get_preserve _ _ _ _ (alloc_get_preserve _ _ _ _ h)))

/-- C9 witness: the frame-preservation statement instantiated at the loaded
concrete state and the Referrals frame's id. -/
theorem C9_witness :
    sState.heap.get 0 = some (Frame.raw referralSmall)
    ∧ (createFiguresState sState).heap.get 0 = some (Frame.raw referralSmall) :=
  ⟨by decide, C9_create_figures_no_mutation sState 0 (Frame.raw referralSmall) (by decide)⟩

/-- C10: the Referrals, Wallets Created and POL Data tables are found through
the whitespace-stripping dict of line 10, but the token table is read by the
exact sheet name (line 16): a workbook whose token sheet name carries
surrounding whitespace fails to load even though the identical whitespace on
the other three sheet names is tolerated. -/
theorem C10_sheet_name_stripping :
    (loadTables wbWhitespace).isOk = true
    ∧ (dictGet (strippedSheets wbWhitespaceTok) "Referrals").isSome = true
    ∧ (dictGet (strippedSheets wbWhitespaceTok) "Wallets Created").isSome = true
    ∧ (dictGet (strippedSheets wbWhitespaceTok) "POL Data").isSome = true
    ∧ readSheet wbWhitespaceTok "Tokens per source" = none
    ∧ (loadTables wbWhitespaceTok).isOk = false := by
  decide

end Sharp
